import Mathlib

/-!
Verification development for the get-tmdb bulk-harvest program.

The Go source (main.go, tmdb.go) is shallowly embedded below:
pure computations become Lean functions, the effectful parts
(HTTP fetch, gzip decompression, JSON unmarshalling, filesystem
calls, the worker-pool channels) are threaded explicitly as
oracle parameters or as event lists, mirroring the source
statement by statement.  Machine integers (Go int64 / int) are
modelled as Nat / Int: none of the counters in the source can
overflow on any input a snapshot file can produce, and no claim
concerns overflow.
-/

namespace GetTmdb

/-! ### Go `time.Time` restricted to UTC calendar time

The program only ever uses UTC times (time.Now().UTC(), and dates
parsed by time.Parse which yields UTC midnight), so a civil
calendar date plus clock time models `time.Time` faithfully for
every operation the source performs on it. -/

structure GoTime where
  year : Nat
  month : Nat
  day : Nat
  hour : Nat
  minute : Nat
  second : Nat
deriving Repr, DecidableEq

/-- Go's zero `time.Time`: January 1, year 1, 00:00:00 UTC. -/
def zeroTime : GoTime := ⟨1, 1, 1, 0, 0, 0⟩

def isLeapYear (y : Nat) : Bool :=
  y % 4 == 0 && (y % 100 != 0 || y % 400 == 0)

def daysInMonth (y m : Nat) : Nat :=
  if m = 2 then (if isLeapYear y then 29 else 28)
  else if m = 4 ∨ m = 6 ∨ m = 9 ∨ m = 11 then 30
  else 31

/-- Model of `utc.Add(time.Duration(-24) * time.Hour)` on a UTC time:
subtracting 24 hours keeps the clock reading and moves to the previous
calendar day (UTC has no DST transitions). -/
def sub24Hours (t : GoTime) : GoTime :=
  if t.day > 1 then { t with day := t.day - 1 }
  else if t.month > 1 then
    { t with month := t.month - 1, day := daysInMonth t.year (t.month - 1) }
  else
    { t with year := t.year - 1, month := 12, day := 31 }

def digitVal (c : Char) : Nat := c.toNat - 48

/-- Model of Go `time.Parse("2006-01-02", s)`: exactly ten characters,
four digits, a dash, two digits, a dash, two digits, with the month in
1..12 and the day within the month; anything else is a parse error
(`none`).  Go's fixed-width layout "2006-01-02" demands exactly this
shape and range-checks month and day. -/
def parseYMD (s : String) : Option GoTime :=
  match s.data with
  | [y1, y2, y3, y4, s1, m1, m2, s2, d1, d2] =>
    if y1.isDigit && y2.isDigit && y3.isDigit && y4.isDigit &&
       s1 == '-' && m1.isDigit && m2.isDigit && s2 == '-' &&
       d1.isDigit && d2.isDigit then
      let y := ((digitVal y1 * 10 + digitVal y2) * 10 + digitVal y3) * 10 + digitVal y4
      let m := digitVal m1 * 10 + digitVal m2
      let d := digitVal d1 * 10 + digitVal d2
      if 1 ≤ m ∧ m ≤ 12 ∧ 1 ≤ d ∧ d ≤ daysInMonth y m then
        some ⟨y, m, d, 0, 0, 0⟩
      else none
    else none
  | _ => none

def pad2 (n : Nat) : String :=
  if n < 10 then "0" ++ toString n else toString n

def pad4 (n : Nat) : String :=
  if n < 10 then "000" ++ toString n
  else if n < 100 then "00" ++ toString n
  else if n < 1000 then "0" ++ toString n
  else toString n

/-- Go `t.Format("01_02_2006")`: zero-padded month, day, four-digit year. -/
def fmtMMDDYYYY (t : GoTime) : String :=
  pad2 t.month ++ "_" ++ pad2 t.day ++ "_" ++ pad4 t.year

/-- Go `t.Format("2006-01-02")`. -/
def fmtYYYYMMDD (t : GoTime) : String :=
  pad4 t.year ++ "-" ++ pad2 t.month ++ "-" ++ pad2 t.day

/-! ### Data model (tmdb.go) -/

structure DailyExport where
  MediaType : String
  UrlPrefix : String
  Name : String
  ExportFile : String
  DataFile : String
deriving Repr, DecidableEq

structure TheMovieDB where
  APIKey : String
  OutputPath : String
  ExportDate : GoTime
  DailyExports : List (String × DailyExport)
deriving Repr, DecidableEq

/-- The `tmdb.DailyExports` map literal from `NewMovieDB`.  A Go map is
modelled as its list of key/value entries; range iteration order is
nondeterministic in Go and is supplied as a permutation of this list
wherever the source ranges over the map. -/
def dailyExportsTable : List (String × DailyExport) :=
  [("Movie", ⟨"Movie", "movie_ids", "movie_ids.json", "", ""⟩),
   ("TV Series", ⟨"TV Series", "tv_series_ids", "tv_series_ids.json", "", ""⟩),
   ("Person", ⟨"Person", "person_ids", "person_ids.json", "", ""⟩),
   ("Collection", ⟨"Collection", "collection_ids", "collection_ids.json", "", ""⟩),
   ("TV Network", ⟨"TV Network", "tv_network_ids", "tv_network_ids.json", "", ""⟩),
   ("Keyword", ⟨"Keyword", "keyword_ids", "keyword_ids.json", "", ""⟩),
   ("Company", ⟨"Company", "production_company_ids", "company_ids.json", "", ""⟩)]

/-- Model of `NewMovieDB(apiKey, exportDate)`.  `nowUTC` stands for
`time.Now().UTC()`.  With no override, the export date is the current
UTC time, minus 24 hours when the UTC hour is before 8.  With an
override the source runs `utc, _ = time.Parse("2006-01-02", exportDate)`,
discarding the error: a failed parse leaves Go's zero time, which
`Option.getD zeroTime` models exactly. -/
def NewMovieDB (apiKey : String) (exportDate : String) (nowUTC : GoTime) : TheMovieDB :=
  let utc :=
    if exportDate = "" then
      (if nowUTC.hour < 8 then sub24Hours nowUTC else nowUTC)
    else
      (parseYMD exportDate).getD zeroTime
  { APIKey := apiKey, OutputPath := "", ExportDate := utc,
    DailyExports := dailyExportsTable }

/-! ### Filepath model

`filepath.Join` concatenates with a separator and `filepath.Abs`
prepends the working directory to a relative path.  The lexical
clean-up both perform (collapsing dot segments and doubled
separators) is elided: no claim concerns paths containing such
segments, and every path the program builds is already clean. -/

def goJoin (a b : String) : String := a ++ "/" ++ b

def goIsAbs (p : String) : Bool :=
  match p.data with
  | [] => false
  | c :: _ => c == '/'

def goAbs (cwd p : String) : String :=
  if goIsAbs p then p else goJoin cwd p

/-! ### Filesystem events -/

inductive FsEvent where
  | mkdirAll (path : String) (mode : Nat)
  | writeFile (path : String) (content : String) (mode : Nat)
deriving Repr, DecidableEq

/-- Model of `(tmdb *TheMovieDB).ValidateOutputPath(outputPath)`.
`pathExists` is the `os.Stat` oracle.  The source computes the absolute
path of `<outputPath>/export_date=<YYYY-MM-DD>`, creates it with mode
0700 when it does not exist, and stores it in `tmdb.OutputPath`.  The
two error returns (Abs failure, MkdirAll failure) cannot occur in this
lexical model and for a well-behaved filesystem oracle, so the model is
total; no claim concerns those failures. -/
def ValidateOutputPath (cwd : String) (pathExists : String → Bool)
    (tmdb : TheMovieDB) (outputPath : String) : TheMovieDB × List FsEvent :=
  let path := goAbs cwd (goJoin outputPath ("export_date=" ++ fmtYYYYMMDD tmdb.ExportDate))
  let evs := if pathExists path then [] else [FsEvent.mkdirAll path 0o700]
  ({ tmdb with OutputPath := path }, evs)

/-! ### HTTP retry client (RequestWorker, tmdb.go)

`RequestWorker` builds an httpretry client with
`WithMaxRetryCount(20)`, the retry policy
`statusCode == 429 || err != nil || statusCode >= 500 || statusCode == 0`
and the constant backoff `100 * time.Millisecond`.  An HTTP attempt is
modelled by its observable outcome; `attempts n` is the outcome of the
n-th attempt (0-based: attempt 0 is the initial request, attempts
1..20 the retries). -/

structure HttpOutcome where
  status : Int
  transportErr : Bool
  body : String
deriving Repr, DecidableEq

def maxRetryCount : Nat := 20

/-- The retry policy closure passed to `httpretry.WithRetryPolicy`. -/
def retryPolicy (statusCode : Int) (errPresent : Bool) : Bool :=
  statusCode == 429 || errPresent || decide (statusCode ≥ 500) || statusCode == 0

/-- The backoff policy closure passed to `httpretry.WithBackoffPolicy`:
a constant 100 milliseconds, whatever the attempt number. -/
def backoffPolicy (attemptNum : Nat) : Nat := 100

/-- The retry loop of the httpretry client: perform the attempt at
index `i`; retry on the next index while the policy holds and retries
remain.  Returns the index and outcome of the final attempt made. -/
def retryFrom (attempts : Nat → HttpOutcome) (i : Nat) : Nat → Nat × HttpOutcome
  | 0 => (i, attempts i)
  | fuel + 1 =>
    let o := attempts i
    if retryPolicy o.status o.transportErr then retryFrom attempts (i + 1) fuel
    else (i, o)

/-- The final attempt of a full retried call: initial attempt plus up
to `maxRetryCount` retries. -/
def finalAttempt (attempts : Nat → HttpOutcome) : Nat × HttpOutcome :=
  retryFrom attempts 0 maxRetryCount

/-- Validation performed by the `requests` builder: the fetch succeeds
iff no transport error occurred and the status is 2xx. -/
def requestOk (o : HttpOutcome) : Bool :=
  !o.transportErr && decide (200 ≤ o.status) && decide (o.status < 300)

/-- The string a `RequestWorker` pushes onto the result channel for one
job: `var response string` is freshly declared per job, `ToString`
fills it only when the (retried) fetch succeeds, and on error the
worker logs and pushes the still-empty string. -/
def RequestWorkerResult (attempts : Nat → HttpOutcome) : String :=
  let o := (finalAttempt attempts).2
  if requestOk o then o.body else ""

/-! ### Snapshot Acquirer (GetDailyExports, tmdb.go) -/

/-- The daily-export download URL one loop iteration of `GetDailyExports`
builds: host `http://files.tmdb.org`, path
`/p/exports/<UrlPrefix>_<MM_DD_YYYY>.json.gz`, and the API key as the
`api_key` query parameter. -/
def snapshotURL (tmdb : TheMovieDB) (de : DailyExport) : String :=
  "http://files.tmdb.org/p/exports/" ++
    (de.UrlPrefix ++ "_" ++ fmtMMDDYYYY tmdb.ExportDate ++ ".json") ++
    ".gz?api_key=" ++ tmdb.APIKey

/-- The data-file name built inside `GetDailyExports`:
`strings.Replace(strings.ToLower(dailyExport.MediaType), " ", "_", -1)`
followed by `.json`. -/
def dataFileName (de : DailyExport) : String :=
  (de.MediaType.toLower.replace " " "_") ++ ".json"

/-- The two path assignments of one `GetDailyExports` iteration:
`dailyExport.ExportFile` is the absolute path of `OutputPath/Name` and
`dailyExport.DataFile` the absolute path of `OutputPath/<lowered media
type>.json`. -/
def resolvePaths (cwd outputPath : String) (de : DailyExport) : DailyExport :=
  { de with
    ExportFile := goAbs cwd (goJoin outputPath de.Name),
    DataFile := goAbs cwd (goJoin outputPath (dataFileName de)) }

/-- Loop body of `GetDailyExports` over the map entries, in the given
range order.  `fetch` is the HTTP oracle for the snapshot GET (the
`requests` call, which fails on transport errors and non-2xx statuses),
`gunzip` the gzip-decompression oracle covering both `gzip.NewReader`
and `io.ReadAll` failures, and `writeOk` the `os.WriteFile` oracle.
Each successful iteration records the write of the decompressed bytes,
keyed by the map key of the entry being processed. -/
def getDailyExportsLoop (cwd : String) (fetch : String → Except String String)
    (gunzip : String → Except String String) (writeOk : String → Bool)
    (tmdb : TheMovieDB) :
    List (String × DailyExport) →
    Except String (List (String × DailyExport) × List (String × FsEvent))
  | [] => .ok ([], [])
  | (k, de) :: rest =>
    match fetch (snapshotURL tmdb de) with
    | .error e => .error ("TMDB Movie API Request Failed: " ++ e)
    | .ok compressed =>
      match gunzip compressed with
      | .error e => .error ("GZIP Decompress Failed: " ++ e)
      | .ok data =>
        let de' := resolvePaths cwd tmdb.OutputPath de
        if writeOk de'.ExportFile then
          match getDailyExportsLoop cwd fetch gunzip writeOk tmdb rest with
          | .error e => .error e
          | .ok (rest', evs) =>
            .ok ((k, de') :: rest',
                 (k, FsEvent.writeFile de'.ExportFile data 0o600) :: evs)
        else .error "Writing Response to File Failed"

/-- Model of `(tmdb *TheMovieDB).GetDailyExports()`.  `order` is the
map range order, a permutation of `tmdb.DailyExports`. -/
def GetDailyExports (cwd : String) (fetch : String → Except String String)
    (gunzip : String → Except String String) (writeOk : String → Bool)
    (tmdb : TheMovieDB) (order : List (String × DailyExport)) :
    Except String (TheMovieDB × List (String × FsEvent)) :=
  match getDailyExportsLoop cwd fetch gunzip writeOk tmdb order with
  | .error e => .error e
  | .ok (entries, evs) => .ok ({ tmdb with DailyExports := entries }, evs)

/-! ### Fetch pipeline (ExportMovieData and its six siblings, tmdb.go)

The seven per-class export functions are textually identical except
for the map key, the lookup path template and the error and log
messages; `ExportClass` carries those, and `ExportData` is the common
body.  The worker pool is embedded by its observable behaviour: each
identifier enqueued on the `jobs` channel is processed by exactly one
worker, which pushes exactly one result string onto `results`, and
`CloseWorkerPool` reads exactly `chunkCount` results and writes each
as one line.  Within a chunk the real channel interleaving delivers
results in completion order; the model lists a chunk's results in
submission order as a fixed representative.  Every property proved
below (line counts, emptiness and membership of lines, events, error
propagation) is invariant under intra-chunk permutation, so nothing is
claimed about the order itself. -/

def numWorkers : Nat := 60
def chunkSize : Nat := 3000

inductive PoolEvent where
  | spawn (workers : Nat)
  | drain (jobs : Nat)
deriving Repr, DecidableEq

/-- Total number of results drained (hence lines written) over a list
of worker-pool events. -/
def drainTotal : List PoolEvent → Nat
  | [] => 0
  | PoolEvent.spawn _ :: rest => drainTotal rest
  | PoolEvent.drain k :: rest => k + drainTotal rest

/-- The scan loop of a per-class export function.  State: the lines
still to read, `rowCount` and `chunkCount` as in the source,
`jobsAcc` the identifiers enqueued in the open chunk, `out` the lines
written so far, `evs` the pool events so far.  `parseLine` is the
`json.Unmarshal` oracle for the class's record type, returning the
extracted `Id` (Go leaves absent fields zero, so a parse that succeeds
always yields an identifier); `lookup` maps an identifier to the
string its worker pushes.  A chunk close appends one line per job of
the chunk — `CloseWorkerPool` reads exactly `chunkCount` results. -/
def exportLoop (parseLine : String → Option Int) (lookup : Int → String)
    (errMsg : String) :
    List String → Nat → Nat → List Int → List String → List PoolEvent →
    Except String (Nat × List String × List PoolEvent)
  | [], rowCount, chunkCount, jobsAcc, out, evs =>
    if chunkCount > 0 then
      .ok (rowCount, out ++ jobsAcc.map lookup, evs ++ [PoolEvent.drain chunkCount])
    else
      .ok (rowCount, out, evs)
  | line :: rest, rowCount, chunkCount, jobsAcc, out, evs =>
    let st := if chunkCount = 0 then (([] : List Int), evs ++ [PoolEvent.spawn numWorkers])
              else (jobsAcc, evs)
    match parseLine line with
    | none => .error errMsg
    | some id =>
      let jobs := st.1 ++ [id]
      let cc := chunkCount + 1
      if cc = chunkSize then
        exportLoop parseLine lookup errMsg rest (rowCount + 1) 0 []
          (out ++ jobs.map lookup) (st.2 ++ [PoolEvent.drain cc])
      else
        exportLoop parseLine lookup errMsg rest (rowCount + 1) cc jobs out st.2

/-- What distinguishes the seven per-class export functions. -/
structure ExportClass where
  key : String
  lookupPath : String
  unmarshalErr : String
deriving Repr, DecidableEq

def movieClass : ExportClass :=
  ⟨"Movie", "/3/movie/%d", "Failed to Unmarshal the Movie Export JSON Data"⟩
def tvSeriesClass : ExportClass :=
  ⟨"TV Series", "/3/tv/%d", "Failed to Unmarshal the TV Series Export JSON Data"⟩
def personClass : ExportClass :=
  ⟨"Person", "/3/person/%d", "Failed to Unmarshal the Person Export JSON Data"⟩
def collectionClass : ExportClass :=
  ⟨"Collection", "/3/collection/%d", "Failed to Unmarshal the Collection Export JSON Data"⟩
def tvNetworkClass : ExportClass :=
  ⟨"TV Network", "/3/network/%d", "Failed to Unmarshal the TV Network Export JSON Data"⟩
def keywordClass : ExportClass :=
  ⟨"Keyword", "/3/keyword/%d", "Failed to Unmarshal the Keyword Export JSON Data"⟩
def companyClass : ExportClass :=
  ⟨"Company", "/3/company/%d", "Failed to Unmarshal the Company Export JSON Data"⟩

def exportClassList : List ExportClass :=
  [movieClass, tvSeriesClass, personClass, collectionClass,
   tvNetworkClass, keywordClass, companyClass]

/-- Model of one per-class export function (`ExportMovieData` and its
six siblings).  `attemptsOf id` is the per-attempt HTTP oracle of the
lookup for `id` (the per-id retried GET a `RequestWorker` performs),
`createOk` / `openOk` the outcomes of `os.Create` on the data file and
`os.Open` on the snapshot file, and `lines` the lines the scanner
yields from the snapshot file.  Returns the final `rowCount`, the
output lines and the pool events. -/
def ExportData (cls : ExportClass) (attemptsOf : Int → Nat → HttpOutcome)
    (parseLine : String → Option Int) (createOk openOk : Bool)
    (lines : List String) :
    Except String (Nat × List String × List PoolEvent) :=
  if !createOk then .error "Failed to Open the Output File"
  else if !openOk then .error "Failed to Open the Daily Export IDs File"
  else exportLoop parseLine (fun id => RequestWorkerResult (attemptsOf id))
         cls.unmarshalErr lines 0 0 [] [] []

/-! ### Run orchestration (main.go)

`main` parses flags, builds the `TheMovieDB` value, validates the
output path, runs `GetDailyExports` to completion (exiting on error),
and only then — unless `-justIDs` — invokes the seven per-class
export functions in a fixed order, each guarded by its skip flag and
each exiting the process on error.  The run is modelled as the list
of its observable stage events plus a success flag. -/

structure Flags where
  justIDs : Bool
  skipMovie : Bool
  skipTVSeries : Bool
  skipPerson : Bool
  skipCollection : Bool
  skipTVNetwork : Bool
  skipKeyword : Bool
  skipCompany : Bool
deriving Repr, DecidableEq

/-- The skip flag guarding a given class's export call in `main`. -/
def skipFlag (f : Flags) (key : String) : Bool :=
  if key = "Movie" then f.skipMovie
  else if key = "TV Series" then f.skipTVSeries
  else if key = "Person" then f.skipPerson
  else if key = "Collection" then f.skipCollection
  else if key = "TV Network" then f.skipTVNetwork
  else if key = "Keyword" then f.skipKeyword
  else if key = "Company" then f.skipCompany
  else false

inductive RunEvent where
  | snapshotWrite (cls : String)
  | dataCreate (cls : String)
  | readIDs (cls : String)
deriving Repr, DecidableEq

/-- Everything `main` receives from the outside world: CLI arguments
and the oracles for the process's effects.  `attemptsOf k id n` is the
outcome of attempt `n` of the lookup of identifier `id` in class `k`;
`parseOf k` the unmarshal oracle for class `k`'s record type;
`linesOf k` the lines read back from class `k`'s snapshot file;
`createOkO` / `openOkO` the per-class file open outcomes. -/
structure RunEnv where
  apiKey : String
  exportDateFlag : String
  outputPathFlag : String
  cwd : String
  now : GoTime
  pathExists : String → Bool
  fetch : String → Except String String
  gunzip : String → Except String String
  writeOk : String → Bool
  attemptsOf : String → Int → Nat → HttpOutcome
  parseOf : String → String → Option Int
  linesOf : String → List String
  createOkO : String → Bool
  openOkO : String → Bool

/-- The sequence of per-class export calls at the end of `main`:
classes in the fixed source order, a skipped class contributes
nothing, a class that runs contributes its data-file creation and
snapshot-read events, and a failing export ends the run
(`os.Exit(1)`). -/
def runExports (env : RunEnv) (f : Flags) : List ExportClass → List RunEvent × Bool
  | [] => ([], true)
  | cls :: rest =>
    if skipFlag f cls.key then runExports env f rest
    else
      match ExportData cls (env.attemptsOf cls.key) (env.parseOf cls.key)
              (env.createOkO cls.key) (env.openOkO cls.key) (env.linesOf cls.key) with
      | .error _ =>
        ((if env.createOkO cls.key then [RunEvent.dataCreate cls.key] else []) ++
         (if env.createOkO cls.key && env.openOkO cls.key
            then [RunEvent.readIDs cls.key] else []), false)
      | .ok _ =>
        (((if env.createOkO cls.key then [RunEvent.dataCreate cls.key] else []) ++
          (if env.createOkO cls.key && env.openOkO cls.key
            then [RunEvent.readIDs cls.key] else [])) ++ (runExports env f rest).1,
         (runExports env f rest).2)

/-- Model of `main` after flag validation, on a run whose output-path
stage succeeds.  `order` is the nondeterministic range order of the
`DailyExports` map inside `GetDailyExports`.  A `GetDailyExports`
failure exits before any export; on success each entry produced
exactly one snapshot write, and only then do the per-class exports
run.  (On the failure path the snapshot writes of the iterations
before the failing one are not replayed into the trace; no claim
concerns failing acquirer runs.) -/
def mainRun (env : RunEnv) (f : Flags) (order : List (String × DailyExport)) :
    List RunEvent × Bool :=
  match GetDailyExports env.cwd env.fetch env.gunzip env.writeOk
      (ValidateOutputPath env.cwd env.pathExists
        (NewMovieDB env.apiKey env.exportDateFlag env.now) env.outputPathFlag).1
      order with
  | .error _ => ([], false)
  | .ok (_, snapEvs) =>
    if f.justIDs then (snapEvs.map (fun e => RunEvent.snapshotWrite e.1), true)
    else
      (snapEvs.map (fun e => RunEvent.snapshotWrite e.1)
        ++ (runExports env f exportClassList).1,
       (runExports env f exportClassList).2)

/-! ## Lemmas about the retry client -/

/-- When every attempt in the window is retryable, the loop runs its
fuel out and ends at the attempt `fuel` steps further. -/
lemma retryFrom_exhaust (att : Nat → HttpOutcome) :
    ∀ (fuel i : Nat),
      (∀ n, i ≤ n → n < i + fuel →
        retryPolicy (att n).status (att n).transportErr = true) →
      retryFrom att i fuel = (i + fuel, att (i + fuel)) := by
  intro fuel
  induction fuel with
  | zero => intro i _; simp [retryFrom]
  | succ m ih =>
    intro i h
    have hi : retryPolicy (att i).status (att i).transportErr = true :=
      h i (Nat.le_refl i) (by omega)
    simp only [retryFrom, hi, if_true]
    have hrec := ih (i + 1) (fun n hn hn' => h n (by omega) (by omega))
    rw [hrec, show i + 1 + m = i + (m + 1) from by omega]

/-- When the attempts before index `k` are retryable and attempt `k` is
not, the loop stops exactly at `k` (provided the fuel reaches it). -/
lemma retryFrom_stops (att : Nat → HttpOutcome) :
    ∀ (fuel i k : Nat), i ≤ k → k ≤ i + fuel →
      (∀ n, i ≤ n → n < k →
        retryPolicy (att n).status (att n).transportErr = true) →
      retryPolicy (att k).status (att k).transportErr = false →
      retryFrom att i fuel = (k, att k) := by
  intro fuel
  induction fuel with
  | zero =>
    intro i k h1 h2 _ _
    have : i = k := by omega
    subst this; simp [retryFrom]
  | succ m ih =>
    intro i k h1 h2 hbefore hstop
    rcases Nat.eq_or_lt_of_le h1 with heq | hlt
    · subst heq
      simp [retryFrom, hstop]
    · have hi : retryPolicy (att i).status (att i).transportErr = true :=
        hbefore i (Nat.le_refl i) hlt
      simp only [retryFrom, hi, if_true]
      exact ih (i + 1) k (by omega) (by omega)
        (fun n hn hn' => hbefore n (by omega) hn') hstop

/-- The final attempt index never exceeds the starting index plus the
fuel: the retry cap bounds the number of attempts. -/
lemma retryFrom_fst_le (att : Nat → HttpOutcome) :
    ∀ (fuel i : Nat), (retryFrom att i fuel).1 ≤ i + fuel := by
  intro fuel
  induction fuel with
  | zero => intro i; simp [retryFrom]
  | succ m ih =>
    intro i
    simp only [retryFrom]
    split
    · exact le_trans (ih (i + 1)) (by omega)
    · omega

/-- An outcome the policy retries is never a `requests` success: 429,
5xx, status 0 and transport errors all fail the 2xx validation. -/
lemma requestOk_false_of_retryPolicy (o : HttpOutcome)
    (h : retryPolicy o.status o.transportErr = true) : requestOk o = false := by
  rcases o with ⟨s, te, b⟩
  cases te
  · simp only [retryPolicy, Bool.or_eq_true, beq_iff_eq, decide_eq_true_eq,
      Bool.false_eq_true, or_false, false_or] at h
    simp only [requestOk, Bool.not_false, Bool.true_and, Bool.and_eq_false_iff,
      decide_eq_false_iff_not, not_lt, not_le]
    omega
  · simp [requestOk]

/-- A worker whose lookup succeeds at attempt `k` (all earlier attempts
retryable, `k` within the cap, attempt `k` a 2xx with no transport
error) pushes the body of attempt `k`. -/
lemma RequestWorkerResult_success (att : Nat → HttpOutcome) (k : Nat)
    (hk : k ≤ maxRetryCount)
    (hbefore : ∀ n, n < k →
      retryPolicy (att n).status (att n).transportErr = true)
    (hstop : retryPolicy (att k).status (att k).transportErr = false)
    (hok : requestOk (att k) = true) :
    RequestWorkerResult att = (att k).body := by
  unfold RequestWorkerResult finalAttempt
  rw [retryFrom_stops att maxRetryCount 0 k (Nat.zero_le k) (by omega)
    (fun n _ hn' => hbefore n hn') hstop]
  simp [hok]

/-- A worker whose lookup is retryable on every attempt up to the cap
exhausts its retries and pushes the empty string. -/
lemma RequestWorkerResult_exhausted (att : Nat → HttpOutcome)
    (hall : ∀ n, n ≤ maxRetryCount →
      retryPolicy (att n).status (att n).transportErr = true) :
    RequestWorkerResult att = "" := by
  unfold RequestWorkerResult finalAttempt
  rw [retryFrom_exhaust att maxRetryCount 0 (fun n _ hn' => hall n (by omega))]
  have h20 := requestOk_false_of_retryPolicy _ (hall maxRetryCount (Nat.le_refl _))
  simp [Nat.zero_add, h20]

/-- C5.  The resilient HTTP client retries exactly on 429, 5xx,
transport error or a zero status; its backoff is the constant 100 ms,
independent of the attempt number; and the attempt index is hard-capped
at `maxRetryCount`, after which an abandoned call yields the empty
string as the worker's result. -/
theorem retry_policy_predicate :
    (∀ (statusCode : Int) (errPresent : Bool),
        retryPolicy statusCode errPresent = true ↔
          (statusCode = 429 ∨ 500 ≤ statusCode ∨ errPresent = true ∨ statusCode = 0))
    ∧ (∀ m n : Nat, backoffPolicy m = backoffPolicy n)
    ∧ (∀ n : Nat, backoffPolicy n = 100)
    ∧ (∀ att : Nat → HttpOutcome, (finalAttempt att).1 ≤ maxRetryCount)
    ∧ (∀ att : Nat → HttpOutcome,
        (∀ n, n ≤ maxRetryCount →
          retryPolicy (att n).status (att n).transportErr = true) →
        RequestWorkerResult att = "") := by
  refine ⟨?_, fun m n => rfl, fun n => rfl, ?_, ?_⟩
  · intro s e
    simp only [retryPolicy, Bool.or_eq_true, beq_iff_eq, decide_eq_true_eq]
    constructor
    · rintro (((h | h) | h) | h)
      · exact Or.inl h
      · exact Or.inr (Or.inr (Or.inl h))
      · exact Or.inr (Or.inl h)
      · exact Or.inr (Or.inr (Or.inr h))
    · rintro (h | h | h | h)
      · exact Or.inl (Or.inl (Or.inl h))
      · exact Or.inl (Or.inr h)
      · exact Or.inl (Or.inl (Or.inr h))
      · exact Or.inr h
  · intro att
    exact le_trans (retryFrom_fst_le att maxRetryCount 0) (by omega)
  · intro att hall
    exact RequestWorkerResult_exhausted att hall

/-- Witness for C5 at concrete inputs: a 429 triggers a retry, the
backoff at attempts 0 and 7 coincides at 100 ms, and a lookup answering
500 on every attempt is abandoned with the empty string. -/
theorem retry_policy_predicate_witness :
    retryPolicy 429 false = true
    ∧ backoffPolicy 0 = backoffPolicy 7
    ∧ backoffPolicy 3 = 100
    ∧ (finalAttempt (fun _ => ⟨500, false, "junk"⟩)).1 ≤ maxRetryCount
    ∧ RequestWorkerResult (fun _ => ⟨500, false, "junk"⟩) = "" :=
  ⟨(retry_policy_predicate.1 429 false).mpr (Or.inl rfl),
   retry_policy_predicate.2.1 0 7,
   retry_policy_predicate.2.2.1 3,
   retry_policy_predicate.2.2.2.1 _,
   retry_policy_predicate.2.2.2.2 _ (fun n _ => by decide)⟩

/-! ## Lemmas about the fetch pipeline -/

lemma drainTotal_append (a b : List PoolEvent) :
    drainTotal (a ++ b) = drainTotal a + drainTotal b := by
  induction a with
  | nil => simp [drainTotal]
  | cons e rest ih =>
    cases e <;> simp [drainTotal, ih] <;> omega

lemma length_filterMap_of_isSome (p : String → Option Int) :
    ∀ (lines : List String), (∀ l ∈ lines, (p l).isSome) →
      (lines.filterMap p).length = lines.length := by
  intro lines
  induction lines with
  | nil => simp
  | cons a rest ih =>
    intro h
    obtain ⟨id, hid⟩ := Option.isSome_iff_exists.mp (h a (by simp))
    simp [List.filterMap_cons, hid, ih (fun l hl => h l (by simp [hl]))]

lemma chunkSize_pos : 0 < chunkSize := by norm_num [chunkSize]

/-- Master shape of a fully-parsed run of the scan loop: starting from
a consistent mid-chunk state it succeeds, its row count advances by
the number of lines, its output is extended by one line per pending
job and one line per input line (in the representative order), and
its drained-result total grows by exactly the pending jobs plus the
new lines. -/
lemma exportLoop_all_parse (p : String → Option Int) (f : Int → String) (e : String) :
    ∀ (lines : List String) (row cc : Nat) (jobsAcc : List Int)
      (out : List String) (evs : List PoolEvent),
      jobsAcc.length = cc → cc < chunkSize →
      (∀ l ∈ lines, (p l).isSome) →
      ∃ evs', exportLoop p f e lines row cc jobsAcc out evs
          = .ok (row + lines.length, out ++ (jobsAcc ++ lines.filterMap p).map f, evs')
        ∧ drainTotal evs' = drainTotal evs + cc + lines.length := by
  intro lines
  induction lines with
  | nil =>
    intro row cc jobsAcc out evs hlen hcc _
    by_cases h0 : 0 < cc
    · refine ⟨evs ++ [PoolEvent.drain cc], ?_, ?_⟩
      · simp [exportLoop, h0]
      · simp [drainTotal_append, drainTotal]
    · have hcc0 : cc = 0 := by omega
      have hjob : jobsAcc = [] := List.length_eq_zero.mp (by omega)
      subst hcc0; subst hjob
      exact ⟨evs, by simp [exportLoop], by simp⟩
  | cons a rest ih =>
    intro row cc jobsAcc out evs hlen hcc hall
    obtain ⟨id, hid⟩ := Option.isSome_iff_exists.mp (hall a (by simp))
    have hrest : ∀ l ∈ rest, (p l).isSome := fun l hl => hall l (by simp [hl])
    by_cases h0 : cc = 0
    · subst h0
      have hjob : jobsAcc = [] := List.length_eq_zero.mp hlen
      subst hjob
      have h1 : (0 : Nat) + 1 ≠ chunkSize := by norm_num [chunkSize]
      obtain ⟨evs', heq, hd⟩ := ih (row + 1) 1 [id] out
        (evs ++ [PoolEvent.spawn numWorkers]) rfl (by norm_num [chunkSize]) hrest
      refine ⟨evs', ?_, ?_⟩
      · simp only [exportLoop, eq_self_iff_true, if_true, hid, if_neg h1,
          List.nil_append, Nat.zero_add]
        rw [heq]
        simp [List.filterMap_cons, hid, Nat.add_assoc, Nat.add_comm, Nat.add_left_comm]
      · rw [hd, drainTotal_append]
        simp only [drainTotal, List.length_cons]
        omega
    · by_cases hfull : cc + 1 = chunkSize
      · obtain ⟨evs', heq, hd⟩ := ih (row + 1) 0 []
          (out ++ (jobsAcc ++ [id]).map f) (evs ++ [PoolEvent.drain (cc + 1)])
          rfl chunkSize_pos hrest
        refine ⟨evs', ?_, ?_⟩
        · simp only [exportLoop, if_neg h0, hid, if_pos hfull]
          rw [heq]
          simp [List.filterMap_cons, hid, Nat.add_assoc, Nat.add_comm, Nat.add_left_comm]
        · rw [hd, drainTotal_append]
          simp only [drainTotal, List.length_cons]
          omega
      · obtain ⟨evs', heq, hd⟩ := ih (row + 1) (cc + 1) (jobsAcc ++ [id]) out evs
          (by simp [hlen]) (by omega) hrest
        refine ⟨evs', ?_, ?_⟩
        · simp only [exportLoop, if_neg h0, hid, if_neg hfull]
          rw [heq]
          simp [List.filterMap_cons, hid, Nat.add_assoc, Nat.add_comm, Nat.add_left_comm]
        · rw [hd]
          simp only [List.length_cons]
          omega

/-- C1.  Row-count conservation: on a snapshot whose lines all parse,
a per-class export succeeds, its final row count equals the number of
input lines, it writes exactly one output line per input line, and the
total of results drained over the chunk closes (each close reading
exactly as many results as that chunk enqueued, the final partial
chunk included) also equals the number of input lines — whatever the
per-identifier lookup outcomes, failed lookups included. -/
theorem row_count_conservation (cls : ExportClass)
    (attemptsOf : Int → Nat → HttpOutcome) (p : String → Option Int)
    (lines : List String) (hp : ∀ l ∈ lines, (p l).isSome) :
    ∃ out evs,
      ExportData cls attemptsOf p true true lines = .ok (lines.length, out, evs)
      ∧ out.length = lines.length ∧ drainTotal evs = lines.length := by
  obtain ⟨evs, heq, hd⟩ := exportLoop_all_parse p
    (fun id => RequestWorkerResult (attemptsOf id)) cls.unmarshalErr
    lines 0 0 [] [] [] rfl chunkSize_pos hp
  refine ⟨(lines.filterMap p).map (fun id => RequestWorkerResult (attemptsOf id)),
    evs, ?_, ?_, ?_⟩
  · simp only [ExportData, Bool.not_true, Bool.false_eq_true, if_false]
    rw [heq]
    simp
  · rw [List.length_map, length_filterMap_of_isSome p lines hp]
  · simpa [drainTotal] using hd

/-- Witness for C1: a three-line snapshot yields exactly three output
lines and three drained results. -/
theorem row_count_conservation_witness :
    ∃ out evs,
      ExportData movieClass (fun _ _ => ⟨200, false, "resp"⟩)
        (fun l => if l = "x" then some 1 else none) true true ["x", "x", "x"]
        = .ok (3, out, evs) ∧ out.length = 3 ∧ drainTotal evs = 3 := by
  have h := row_count_conservation movieClass (fun _ _ => ⟨200, false, "resp"⟩)
    (fun l => if l = "x" then some 1 else none) ["x", "x", "x"]
    (by intro l hl; fin_cases hl <;> simp)
  simpa using h

/-- C3.  Per-item failure is recoverable: an identifier whose lookup
answers 500 on every attempt up to the retry cap makes its worker push
the empty string, the export still succeeds with one line per input
line and the output contains an empty line; conversely a lookup that
answers 429 on the first `k` attempts (k within the cap) and 200 with
a non-empty body on attempt `k + 1` makes the worker push that
non-empty body. -/
theorem recoverable_lookup_failure :
    (∀ (cls : ExportClass) (attemptsOf : Int → Nat → HttpOutcome)
       (p : String → Option Int) (lines : List String) (id₀ : Int),
       (∀ l ∈ lines, (p l).isSome) →
       (∀ n, n ≤ maxRetryCount →
         (attemptsOf id₀ n).status = 500 ∧ (attemptsOf id₀ n).transportErr = false) →
       (∃ l ∈ lines, p l = some id₀) →
       ∃ out evs,
         ExportData cls attemptsOf p true true lines = .ok (lines.length, out, evs)
         ∧ RequestWorkerResult (attemptsOf id₀) = "" ∧ "" ∈ out)
    ∧ (∀ (att : Nat → HttpOutcome) (k : Nat), k ≤ maxRetryCount →
        (∀ n, n < k → (att n).status = 429 ∧ (att n).transportErr = false) →
        (att k).status = 200 → (att k).transportErr = false → (att k).body ≠ "" →
        RequestWorkerResult att = (att k).body ∧ RequestWorkerResult att ≠ "") := by
  constructor
  · intro cls attemptsOf p lines id₀ hp hfail hmem
    have hempty : RequestWorkerResult (attemptsOf id₀) = "" := by
      refine RequestWorkerResult_exhausted _ (fun n hn => ?_)
      rw [(hfail n hn).1, (hfail n hn).2]
      decide
    obtain ⟨evs, heq, hd⟩ := exportLoop_all_parse p
      (fun id => RequestWorkerResult (attemptsOf id)) cls.unmarshalErr
      lines 0 0 [] [] [] rfl chunkSize_pos hp
    refine ⟨(lines.filterMap p).map (fun id => RequestWorkerResult (attemptsOf id)),
      evs, ?_, hempty, ?_⟩
    · simp only [ExportData, Bool.not_true, Bool.false_eq_true, if_false]
      rw [heq]
      simp
    · obtain ⟨l, hl, hpl⟩ := hmem
      exact List.mem_map.mpr ⟨id₀, List.mem_filterMap.mpr ⟨l, hl, hpl⟩, hempty⟩
  · intro att k hk hbefore hs ht hbody
    have hres : RequestWorkerResult att = (att k).body := by
      refine RequestWorkerResult_success att k hk (fun n hn => ?_) ?_ ?_
      · rw [(hbefore n hn).1, (hbefore n hn).2]; decide
      · rw [hs, ht]; decide
      · simp [requestOk, hs, ht]
    exact ⟨hres, by rw [hres]; exact hbody⟩

/-- Witness for C3: a one-line snapshot whose only lookup always
answers 500 still exports successfully with an empty line; a lookup
answering 429 three times then 200 yields its payload. -/
theorem recoverable_lookup_failure_witness :
    (∃ out evs,
      ExportData movieClass (fun _ _ => ⟨500, false, "junk"⟩)
        (fun l => if l = "x" then some 1 else none) true true ["x"]
        = .ok (1, out, evs)
      ∧ RequestWorkerResult (fun _ => ⟨500, false, "junk"⟩) = "" ∧ "" ∈ out)
    ∧ RequestWorkerResult
        (fun n => if n < 3 then ⟨429, false, ""⟩ else ⟨200, false, "payload"⟩)
        = "payload" := by
  constructor
  · have h := recoverable_lookup_failure.1 movieClass
      (fun _ _ => ⟨500, false, "junk"⟩)
      (fun l => if l = "x" then some 1 else none) ["x"] 1
      (by intro l hl; fin_cases hl <;> simp)
      (by intro n _; exact ⟨rfl, rfl⟩)
      ⟨"x", by simp, by simp⟩
    simpa using h
  · have h := recoverable_lookup_failure.2
      (fun n => if n < 3 then ⟨429, false, ""⟩ else ⟨200, false, "payload"⟩) 3
      (by norm_num [maxRetryCount])
      (by intro n hn; simp [hn])
      (by norm_num) (by norm_num) (by decide)
    simpa using h.1

/-- A line that fails to unmarshal aborts the scan loop with the
class's wrapped error, whatever state the loop reached, provided every
earlier line parsed. -/
lemma exportLoop_bad_line (p : String → Option Int) (f : Int → String) (e : String)
    (bad : String) (hbad : p bad = none) :
    ∀ (good rest : List String) (row cc : Nat) (jobsAcc : List Int)
      (out : List String) (evs : List PoolEvent),
      jobsAcc.length = cc → cc < chunkSize → (∀ l ∈ good, (p l).isSome) →
      exportLoop p f e (good ++ bad :: rest) row cc jobsAcc out evs = .error e := by
  intro good
  induction good with
  | nil =>
    intro rest row cc jobsAcc out evs _ _ _
    by_cases h0 : cc = 0
    · subst h0; simp [exportLoop, hbad]
    · simp [exportLoop, if_neg h0, hbad]
  | cons a g ih =>
    intro rest row cc jobsAcc out evs hlen hcc hall
    obtain ⟨id, hid⟩ := Option.isSome_iff_exists.mp (hall a (by simp))
    have hg : ∀ l ∈ g, (p l).isSome := fun l hl => hall l (by simp [hl])
    by_cases h0 : cc = 0
    · subst h0
      have hjob : jobsAcc = [] := List.length_eq_zero.mp hlen
      subst hjob
      have h1 : (0 : Nat) + 1 ≠ chunkSize := by norm_num [chunkSize]
      simp only [List.cons_append, exportLoop, eq_self_iff_true, if_true, hid,
        if_neg h1, List.nil_append, Nat.zero_add]
      exact ih rest (row + 1) 1 [id] out (evs ++ [PoolEvent.spawn numWorkers])
        rfl (by norm_num [chunkSize]) hg
    · by_cases hfull : cc + 1 = chunkSize
      · simp only [List.cons_append, exportLoop, if_neg h0, hid, if_pos hfull]
        exact ih rest (row + 1) 0 [] _ _ rfl chunkSize_pos hg
      · simp only [List.cons_append, exportLoop, if_neg h0, hid, if_neg hfull]
        exact ih rest (row + 1) (cc + 1) (jobsAcc ++ [id]) out evs
          (by simp [hlen]) (by omega) hg

/-- C4.  A malformed snapshot line is fatal: the per-class export stops
at the first line that fails to unmarshal, returns the class's wrapped
unmarshal error, and the lines after the malformed one have no effect
on the outcome (they are never processed). -/
theorem malformed_line_fatal (cls : ExportClass)
    (attemptsOf : Int → Nat → HttpOutcome) (p : String → Option Int)
    (good rest : List String) (bad : String)
    (hgood : ∀ l ∈ good, (p l).isSome) (hbad : p bad = none) :
    ExportData cls attemptsOf p true true (good ++ bad :: rest)
      = .error cls.unmarshalErr
    ∧ ∀ rest' : List String,
        ExportData cls attemptsOf p true true (good ++ bad :: rest')
          = ExportData cls attemptsOf p true true (good ++ bad :: rest) := by
  have h := exportLoop_bad_line p (fun id => RequestWorkerResult (attemptsOf id))
    cls.unmarshalErr bad hbad good rest 0 0 [] [] [] rfl chunkSize_pos hgood
  constructor
  · simpa [ExportData] using h
  · intro rest'
    have h' := exportLoop_bad_line p (fun id => RequestWorkerResult (attemptsOf id))
      cls.unmarshalErr bad hbad good rest' 0 0 [] [] [] rfl chunkSize_pos hgood
    simp only [ExportData, Bool.not_true, Bool.false_eq_true, if_false]
    rw [h, h']

/-- Witness for C4: the snapshot x, not-json, y aborts the Movie export
with the Movie unmarshal error. -/
theorem malformed_line_fatal_witness :
    ExportData movieClass (fun _ _ => ⟨200, false, "resp"⟩)
      (fun l => if l = "x" then some 1 else none) true true ["x", "not-json", "y"]
      = .error "Failed to Unmarshal the Movie Export JSON Data" := by
  have h := malformed_line_fatal movieClass (fun _ _ => ⟨200, false, "resp"⟩)
    (fun l => if l = "x" then some 1 else none) ["x"] ["y"] "not-json"
    (by intro l hl; fin_cases hl <;> simp) (by simp)
  simpa [movieClass] using h.1

/-- Reading one parsed line with no chunk open spawns a fresh pool of
`numWorkers` workers and opens a chunk holding that identifier. -/
lemma exportLoop_spawn (p : String → Option Int) (f : Int → String) (e : String)
    (a : String) (rest : List String) (row : Nat) (jobsAcc : List Int)
    (out : List String) (evs : List PoolEvent) (id : Int) (h : p a = some id) :
    exportLoop p f e (a :: rest) row 0 jobsAcc out evs
      = exportLoop p f e rest (row + 1) 1 [id] out
          (evs ++ [PoolEvent.spawn numWorkers]) := by
  have h1 : (0 : Nat) + 1 ≠ chunkSize := by norm_num [chunkSize]
  simp only [exportLoop, eq_self_iff_true, if_true, h, if_neg h1,
    List.nil_append, Nat.zero_add]

/-- Filling an open chunk up to exactly `chunkSize` closes it: one
drain of `chunkSize` results is recorded, one line per job of the
chunk is written, and the loop continues on the remaining input with
no chunk open. -/
lemma exportLoop_chunk_step (p : String → Option Int) (f : Int → String) (e : String) :
    ∀ (l₁ l₂ : List String) (row cc : Nat) (jobsAcc : List Int)
      (out : List String) (evs : List PoolEvent),
      0 < cc → jobsAcc.length = cc → cc < chunkSize → cc + l₁.length = chunkSize →
      (∀ l ∈ l₁, (p l).isSome) →
      exportLoop p f e (l₁ ++ l₂) row cc jobsAcc out evs
        = exportLoop p f e l₂ (row + l₁.length) 0 []
            (out ++ (jobsAcc ++ l₁.filterMap p).map f)
            (evs ++ [PoolEvent.drain chunkSize]) := by
  intro l₁
  induction l₁ with
  | nil =>
    intro l₂ row cc jobsAcc out evs hpos hlen hlt hsum _
    exact absurd hsum (by simp; omega)
  | cons a g ih =>
    intro l₂ row cc jobsAcc out evs hpos hlen hlt hsum hall
    obtain ⟨id, hid⟩ := Option.isSome_iff_exists.mp (hall a (by simp))
    have hg : ∀ l ∈ g, (p l).isSome := fun l hl => hall l (by simp [hl])
    have h0 : cc ≠ 0 := by omega
    by_cases hfull : cc + 1 = chunkSize
    · have hgnil : g = [] := by
        have : g.length = 0 := by simp at hsum; omega
        exact List.length_eq_zero.mp this
      subst hgnil
      simp only [List.cons_append, List.nil_append, exportLoop, if_neg h0, hid,
        if_pos hfull, hfull, List.filterMap_cons, List.filterMap_nil]
      rfl
    · simp only [List.cons_append, exportLoop, if_neg h0, hid, if_neg hfull,
        List.append_eq]
      rw [ih l₂ (row + 1) (cc + 1) (jobsAcc ++ [id]) out evs (by omega)
        (by simp [hlen]) (by omega) (by simp at hsum ⊢; omega) hg]
      simp only [List.filterMap_cons, hid, List.length_cons, List.append_assoc,
        List.cons_append, List.nil_append]
      rw [show row + 1 + g.length = row + (g.length + 1) from by omega]

/-- Closing corollary of `exportLoop_chunk_step`: when the remaining
input fills the open chunk exactly, the loop ends with that single
drain. -/
lemma exportLoop_chunk_exact (p : String → Option Int) (f : Int → String) (e : String)
    (l₁ : List String) (row cc : Nat) (jobsAcc : List Int)
    (out : List String) (evs : List PoolEvent)
    (hpos : 0 < cc) (hlen : jobsAcc.length = cc) (hlt : cc < chunkSize)
    (hsum : cc + l₁.length = chunkSize) (hall : ∀ l ∈ l₁, (p l).isSome) :
    exportLoop p f e l₁ row cc jobsAcc out evs
      = .ok (row + l₁.length, out ++ (jobsAcc ++ l₁.filterMap p).map f,
          evs ++ [PoolEvent.drain chunkSize]) := by
  conv_lhs => rw [← List.append_nil l₁]
  rw [exportLoop_chunk_step p f e l₁ [] row cc jobsAcc out evs hpos hlen hlt hsum hall]
  simp [exportLoop]

/-- C2.  Chunk-cycle count: on a snapshot of exactly `chunkSize`
parsed lines a per-class export performs exactly one worker-pool cycle
(one spawn of `numWorkers` workers, one drain of `chunkSize` results);
on `chunkSize + 1` lines it performs exactly two cycles, the second
spawning the same `numWorkers` workers but draining a single job. -/
theorem chunk_cycle_count (cls : ExportClass)
    (attemptsOf : Int → Nat → HttpOutcome) (p : String → Option Int) :
    (∀ lines : List String, (∀ l ∈ lines, (p l).isSome) →
      lines.length = chunkSize →
      ∃ out, ExportData cls attemptsOf p true true lines
        = .ok (chunkSize, out,
            [PoolEvent.spawn numWorkers, PoolEvent.drain chunkSize]))
    ∧ (∀ lines : List String, (∀ l ∈ lines, (p l).isSome) →
      lines.length = chunkSize + 1 →
      ∃ out, ExportData cls attemptsOf p true true lines
        = .ok (chunkSize + 1, out,
            [PoolEvent.spawn numWorkers, PoolEvent.drain chunkSize,
             PoolEvent.spawn numWorkers, PoolEvent.drain 1])) := by
  constructor
  · intro lines hp hlen
    have hne : lines ≠ [] := by
      intro hnil; rw [hnil] at hlen; simp [chunkSize] at hlen
    obtain ⟨a, rest, hasplit⟩ := List.exists_cons_of_ne_nil hne
    subst hasplit
    obtain ⟨id, hid⟩ := Option.isSome_iff_exists.mp (hp a (by simp))
    have hrest : ∀ l ∈ rest, (p l).isSome := fun l hl => hp l (by simp [hl])
    have hrlen : 1 + rest.length = chunkSize := by simp at hlen; omega
    refine ⟨([id] ++ rest.filterMap p).map
      (fun i => RequestWorkerResult (attemptsOf i)), ?_⟩
    simp only [ExportData, Bool.not_true, Bool.false_eq_true, if_false]
    rw [exportLoop_spawn p _ cls.unmarshalErr a rest 0 [] [] [] id hid]
    rw [exportLoop_chunk_exact p _ cls.unmarshalErr rest (0 + 1) 1 [id]
      [] ([] ++ [PoolEvent.spawn numWorkers]) (by omega) rfl
      (by norm_num [chunkSize]) (by omega) hrest]
    simp
    omega
  · intro lines hp hlen
    have hne : lines ≠ [] := by
      intro hnil; rw [hnil] at hlen; simp [chunkSize] at hlen
    obtain ⟨a, rest, hasplit⟩ := List.exists_cons_of_ne_nil hne
    subst hasplit
    obtain ⟨id, hid⟩ := Option.isSome_iff_exists.mp (hp a (by simp))
    have hrest : ∀ l ∈ rest, (p l).isSome := fun l hl => hp l (by simp [hl])
    have hrlen : rest.length = chunkSize := by simp at hlen; omega
    have htake : (rest.take (chunkSize - 1)).length = chunkSize - 1 := by
      rw [List.length_take]; omega
    have hdroplen : (rest.drop (chunkSize - 1)).length = 1 := by
      rw [List.length_drop]
      simp only [chunkSize] at hrlen ⊢
      omega
    obtain ⟨b, hb⟩ := List.length_eq_one.mp hdroplen
    have hsplit : rest = rest.take (chunkSize - 1) ++ [b] := by
      rw [← hb, List.take_append_drop]
    obtain ⟨idb, hidb⟩ := Option.isSome_iff_exists.mp
      (hp b (by rw [hsplit]; simp))
    have htakeall : ∀ l ∈ rest.take (chunkSize - 1), (p l).isSome :=
      fun l hl => hrest l (List.take_subset _ _ hl)
    refine ⟨(([id] ++ (rest.take (chunkSize - 1)).filterMap p).map
        (fun i => RequestWorkerResult (attemptsOf i))) ++
        [RequestWorkerResult (attemptsOf idb)], ?_⟩
    simp only [ExportData, Bool.not_true, Bool.false_eq_true, if_false]
    rw [show (a :: rest) = a :: (rest.take (chunkSize - 1) ++ [b]) from by
      rw [← hsplit]]
    rw [exportLoop_spawn p _ cls.unmarshalErr a _ 0 [] [] [] id hid]
    rw [exportLoop_chunk_step p _ cls.unmarshalErr (rest.take (chunkSize - 1))
      [b] (0 + 1) 1 [id] [] ([] ++ [PoolEvent.spawn numWorkers]) (by omega) rfl
      (by norm_num [chunkSize]) (by rw [htake]; norm_num [chunkSize]) htakeall]
    rw [exportLoop_spawn p _ cls.unmarshalErr b [] _ [] _ _ idb hidb]
    simp only [exportLoop]
    simp [htake]
    rfl

/-- Witness for C2: replicated snapshots of exactly `chunkSize` and
`chunkSize + 1` lines produce one and two pool cycles respectively. -/
theorem chunk_cycle_count_witness :
    (∃ out, ExportData movieClass (fun _ _ => ⟨200, false, "resp"⟩) (fun _ => some 1)
        true true (List.replicate chunkSize "x")
        = .ok (chunkSize, out,
            [PoolEvent.spawn numWorkers, PoolEvent.drain chunkSize]))
    ∧ (∃ out, ExportData movieClass (fun _ _ => ⟨200, false, "resp"⟩) (fun _ => some 1)
        true true (List.replicate (chunkSize + 1) "x")
        = .ok (chunkSize + 1, out,
            [PoolEvent.spawn numWorkers, PoolEvent.drain chunkSize,
             PoolEvent.spawn numWorkers, PoolEvent.drain 1])) :=
  ⟨(chunk_cycle_count movieClass (fun _ _ => ⟨200, false, "resp"⟩) (fun _ => some 1)).1
      (List.replicate chunkSize "x") (fun _ _ => rfl) (by simp),
   (chunk_cycle_count movieClass (fun _ _ => ⟨200, false, "resp"⟩) (fun _ => some 1)).2
      (List.replicate (chunkSize + 1) "x") (fun _ _ => rfl) (by simp)⟩

/-! ## The snapshot acquirer -/

/-- Closed form of a fully successful `GetDailyExports` loop: each
entry in range order gets its paths resolved and its decompressed
snapshot bytes written. -/
lemma getDailyExportsLoop_ok (cwd : String)
    (fetch gunzip : String → Except String String) (writeOk : String → Bool)
    (tmdb : TheMovieDB) (body plain : String → String)
    (hf : ∀ u, fetch u = .ok (body u)) (hg : ∀ s, gunzip s = .ok (plain s))
    (hw : ∀ pth, writeOk pth = true) :
    ∀ entries : List (String × DailyExport),
      getDailyExportsLoop cwd fetch gunzip writeOk tmdb entries
        = .ok (entries.map (fun e => (e.1, resolvePaths cwd tmdb.OutputPath e.2)),
               entries.map (fun e => (e.1, FsEvent.writeFile
                 (goAbs cwd (goJoin tmdb.OutputPath e.2.Name))
                 (plain (body (snapshotURL tmdb e.2))) 0o600))) := by
  intro entries
  induction entries with
  | nil => rfl
  | cons e rest ih =>
    simp only [getDailyExportsLoop, hf, hg, hw, ih, List.map_cons]
    rfl

/-- C6 (amended).  For every EntityClass, `GetDailyExports` fetches
`<prefix>_<MM_DD_YYYY>.json.gz` (prefix and Export Date in the remote
URL), decompresses the gzip body fully in memory, and writes the
decompressed bytes verbatim to `<outputPath>/<Name>`, where `Name` is
the class's fixed snapshot file name from the `DailyExports` table —
the local file name contains neither the path-prefix-derived date nor,
for the Company class, the prefix itself. -/
theorem snapshot_persistence (cwd : String)
    (fetch gunzip : String → Except String String) (writeOk : String → Bool)
    (tmdb : TheMovieDB) (order : List (String × DailyExport))
    (body plain : String → String)
    (hf : ∀ u, fetch u = .ok (body u)) (hg : ∀ s, gunzip s = .ok (plain s))
    (hw : ∀ pth, writeOk pth = true) :
    GetDailyExports cwd fetch gunzip writeOk tmdb order
      = .ok ({ tmdb with DailyExports :=
                order.map (fun e => (e.1, resolvePaths cwd tmdb.OutputPath e.2)) },
             order.map (fun e => (e.1, FsEvent.writeFile
               (goAbs cwd (goJoin tmdb.OutputPath e.2.Name))
               (plain (body (snapshotURL tmdb e.2))) 0o600)))
    ∧ ∀ e ∈ order,
        (resolvePaths cwd tmdb.OutputPath e.2).ExportFile
          = goAbs cwd (goJoin tmdb.OutputPath e.2.Name) := by
  constructor
  · simp only [GetDailyExports,
      getDailyExportsLoop_ok cwd fetch gunzip writeOk tmdb body plain hf hg hw]
  · intro e _
    rfl

/-- Witness for C6 (amended): with identity oracles a one-entry order
writes the decompressed body to `/out/movie_ids.json`. -/
theorem snapshot_persistence_witness :
    GetDailyExports "/" (fun u => .ok ("gz:" ++ u)) (fun s => .ok ("plain:" ++ s))
      (fun _ => true)
      { APIKey := "k", OutputPath := "/out", ExportDate := zeroTime,
        DailyExports := dailyExportsTable }
      [("Movie", ⟨"Movie", "movie_ids", "movie_ids.json", "", ""⟩)]
      = .ok ({ APIKey := "k", OutputPath := "/out", ExportDate := zeroTime,
               DailyExports := [("Movie", resolvePaths "/" "/out"
                 ⟨"Movie", "movie_ids", "movie_ids.json", "", ""⟩)] },
             [("Movie", FsEvent.writeFile (goAbs "/" (goJoin "/out" "movie_ids.json"))
               ("plain:" ++ ("gz:" ++ snapshotURL
                 { APIKey := "k", OutputPath := "/out", ExportDate := zeroTime,
                   DailyExports := dailyExportsTable }
                 ⟨"Movie", "movie_ids", "movie_ids.json", "", ""⟩)) 0o600)]) := by
  have h := (snapshot_persistence "/" (fun u => .ok ("gz:" ++ u))
    (fun s => .ok ("plain:" ++ s)) (fun _ => true)
    { APIKey := "k", OutputPath := "/out", ExportDate := zeroTime,
      DailyExports := dailyExportsTable }
    [("Movie", ⟨"Movie", "movie_ids", "movie_ids.json", "", ""⟩)]
    (fun u => "gz:" ++ u) (fun s => "plain:" ++ s)
    (fun _ => rfl) (fun _ => rfl) (fun _ => rfl)).1
  simpa using h

/-- C6 counterexample: the claim's naming `<outputPath>/<prefix>_<date>.json`
fails at a concrete input.  For the Company class with Export Date
2024-01-02 the local snapshot file is `/out/company_ids.json`: it is
not `<prefix>_<date>.json` under either date rendering, and its name
does not even start from the URL path-prefix `production_company_ids`. -/
theorem snapshot_naming_cex :
    ((NewMovieDB "k" "2024-01-02" zeroTime).DailyExports.lookup "Company").map
        (fun de => (resolvePaths "/" "/out" de).ExportFile)
      = some "/out/company_ids.json"
    ∧ fmtMMDDYYYY (NewMovieDB "k" "2024-01-02" zeroTime).ExportDate = "01_02_2024"
    ∧ "/out/company_ids.json" ≠ "/out/production_company_ids_01_02_2024.json"
    ∧ "/out/company_ids.json" ≠ "/out/production_company_ids_2024-01-02.json"
    ∧ ((NewMovieDB "k" "2024-01-02" zeroTime).DailyExports.lookup "Movie").map
        (fun de => (resolvePaths "/" "/out" de).ExportFile)
      = some "/out/movie_ids.json"
    ∧ "/out/movie_ids.json" ≠ "/out/movie_ids_01_02_2024.json" := by
  refine ⟨rfl, rfl, by decide, by decide, rfl, by decide⟩

/-! ## Export Date and output path -/

/-- C7.  A run has a single Export Date: with no override it is the
current UTC time minus one day when the UTC hour is before 8 and the
current UTC time otherwise; a well-formed YYYY-MM-DD override fixes it
to the parsed date; and one date string — the formatted Export Date of
the run — appears in the snapshot URL of every one of the seven
EntityClasses. -/
theorem export_date_invariant (key ov : String) (now : GoTime) :
    ((ov = "" → (NewMovieDB key ov now).ExportDate
        = (if now.hour < 8 then sub24Hours now else now))
    ∧ (∀ d, parseYMD ov = some d → ov ≠ "" →
        (NewMovieDB key ov now).ExportDate = d))
    ∧ ∃ ds, ds = fmtMMDDYYYY (NewMovieDB key ov now).ExportDate
        ∧ ∀ e ∈ (NewMovieDB key ov now).DailyExports,
            snapshotURL (NewMovieDB key ov now) e.2
              = "http://files.tmdb.org/p/exports/"
                ++ (e.2.UrlPrefix ++ "_" ++ ds ++ ".json") ++ ".gz?api_key=" ++ key := by
  refine ⟨⟨?_, ?_⟩, ?_⟩
  · intro h
    simp [NewMovieDB, h]
  · intro d hd hov
    simp [NewMovieDB, hov, hd]
  · exact ⟨_, rfl, fun e _ => rfl⟩

/-- Witness for C7: with the override 2024-01-02 the run's Export Date
is January 2, 2024, whatever the clock reads at run time. -/
theorem export_date_invariant_witness :
    (NewMovieDB "k" "2024-01-02" ⟨2024, 5, 6, 7, 0, 0⟩).ExportDate
      = ⟨2024, 1, 2, 0, 0, 0⟩ :=
  (export_date_invariant "k" "2024-01-02" ⟨2024, 5, 6, 7, 0, 0⟩).1.2
    ⟨2024, 1, 2, 0, 0, 0⟩ rfl (by decide)

/-- C9.  A malformed export-date override is silently accepted:
`NewMovieDB` discards the parse error, sets the Export Date to Go's
zero time (January 1 of year 1), and every snapshot URL of the run is
dated `01_01_0001`. -/
theorem invalid_override_zero_time (key s : String) (now : GoTime)
    (hs : s ≠ "") (hparse : parseYMD s = none) :
    (NewMovieDB key s now).ExportDate = zeroTime
    ∧ fmtMMDDYYYY (NewMovieDB key s now).ExportDate = "01_01_0001"
    ∧ ∀ e ∈ (NewMovieDB key s now).DailyExports,
        snapshotURL (NewMovieDB key s now) e.2
          = "http://files.tmdb.org/p/exports/"
            ++ (e.2.UrlPrefix ++ "_" ++ "01_01_0001" ++ ".json")
            ++ ".gz?api_key=" ++ key := by
  have h1 : (NewMovieDB key s now).ExportDate = zeroTime := by
    simp [NewMovieDB, hs, hparse]
  refine ⟨h1, by rw [h1]; rfl, ?_⟩
  intro e _
  simp only [snapshotURL, h1]
  rfl

/-- Witness for C9: the override 2024/01/01 (wrong separators) fails
Go's YYYY-MM-DD parse, and the run proceeds with URLs dated
01_01_0001. -/
theorem invalid_override_zero_time_witness :
    (NewMovieDB "k" "2024/01/01" ⟨2024, 5, 6, 7, 0, 0⟩).ExportDate = zeroTime
    ∧ fmtMMDDYYYY (NewMovieDB "k" "2024/01/01" ⟨2024, 5, 6, 7, 0, 0⟩).ExportDate
        = "01_01_0001" := by
  have h := invalid_override_zero_time "k" "2024/01/01" ⟨2024, 5, 6, 7, 0, 0⟩
    (by decide) (by rfl)
  exact ⟨h.1, h.2.1⟩

/-- C10.  `ValidateOutputPath` never stores the caller's directory
itself: it stores the absolute path of the date-partition subdirectory
`<outputPath>/export_date=<YYYY-MM-DD>` of the run's Export Date,
creates it with mode 0700 exactly when it does not exist, and the
snapshot and data files of every class are then placed directly inside
that stored subdirectory. -/
theorem output_path_partition (cwd outputPath : String)
    (pathExists : String → Bool) (tmdb : TheMovieDB) :
    ((ValidateOutputPath cwd pathExists tmdb outputPath).1.OutputPath
        = goAbs cwd (goJoin outputPath
            ("export_date=" ++ fmtYYYYMMDD tmdb.ExportDate))
    ∧ (pathExists (goAbs cwd (goJoin outputPath
          ("export_date=" ++ fmtYYYYMMDD tmdb.ExportDate))) = false →
        (ValidateOutputPath cwd pathExists tmdb outputPath).2
          = [FsEvent.mkdirAll (goAbs cwd (goJoin outputPath
              ("export_date=" ++ fmtYYYYMMDD tmdb.ExportDate))) 0o700])
    ∧ (pathExists (goAbs cwd (goJoin outputPath
          ("export_date=" ++ fmtYYYYMMDD tmdb.ExportDate))) = true →
        (ValidateOutputPath cwd pathExists tmdb outputPath).2 = []))
    ∧ ∀ de : DailyExport,
        (resolvePaths cwd
            (ValidateOutputPath cwd pathExists tmdb outputPath).1.OutputPath de).ExportFile
          = goAbs cwd (goJoin
              (ValidateOutputPath cwd pathExists tmdb outputPath).1.OutputPath de.Name)
        ∧ (resolvePaths cwd
            (ValidateOutputPath cwd pathExists tmdb outputPath).1.OutputPath de).DataFile
          = goAbs cwd (goJoin
              (ValidateOutputPath cwd pathExists tmdb outputPath).1.OutputPath
              (dataFileName de)) := by
  refine ⟨⟨rfl, ?_, ?_⟩, fun de => ⟨rfl, rfl⟩⟩
  · intro h
    simp [ValidateOutputPath, h]
  · intro h
    simp [ValidateOutputPath, h]

/-- Witness for C10: with an existing target no directory is created,
and the stored path is the date partition under /data. -/
theorem output_path_partition_witness :
    ((ValidateOutputPath "/" (fun _ => true)
        { APIKey := "k", OutputPath := "", ExportDate := ⟨2024, 1, 2, 0, 0, 0⟩,
          DailyExports := [] } "/data").1.OutputPath
      = goAbs "/" (goJoin "/data" ("export_date=" ++ fmtYYYYMMDD ⟨2024, 1, 2, 0, 0, 0⟩)))
    ∧ (ValidateOutputPath "/" (fun _ => true)
        { APIKey := "k", OutputPath := "", ExportDate := ⟨2024, 1, 2, 0, 0, 0⟩,
          DailyExports := [] } "/data").2 = [] := by
  have h := output_path_partition "/" "/data" (fun _ => true)
    { APIKey := "k", OutputPath := "", ExportDate := ⟨2024, 1, 2, 0, 0, 0⟩,
      DailyExports := [] }
  exact ⟨h.1.1, h.1.2.2 rfl⟩

/-! ## Run orchestration lemmas -/

/-- Every event the export phase emits is a data-file creation or a
snapshot read of one of the classes in the list. -/
lemma runExports_events_shape (env : RunEnv) (f : Flags) :
    ∀ cs : List ExportClass, ∀ e ∈ (runExports env f cs).1,
      ∃ c ∈ cs, e = RunEvent.dataCreate c.key ∨ e = RunEvent.readIDs c.key := by
  intro cs
  induction cs with
  | nil => intro e he; simp [runExports] at he
  | cons cls rest ih =>
    intro e he
    by_cases hskip : skipFlag f cls.key
    · rw [runExports, if_pos hskip] at he
      obtain ⟨c, hc, h⟩ := ih e he
      exact ⟨c, by simp [hc], h⟩
    · rw [runExports, if_neg hskip] at he
      rcases hE : ExportData cls (env.attemptsOf cls.key) (env.parseOf cls.key)
          (env.createOkO cls.key) (env.openOkO cls.key) (env.linesOf cls.key) with
        msg | v
      · rw [hE] at he
        simp only [List.mem_append] at he
        rcases he with he | he
        · split at he <;> simp at he <;> exact ⟨cls, by simp, by simp [he]⟩
        · split at he <;> simp at he <;> exact ⟨cls, by simp, by simp [he]⟩
      · rw [hE] at he
        simp only [List.mem_append] at he
        rcases he with (he | he) | he
        · split at he <;> simp at he <;> exact ⟨cls, by simp, by simp [he]⟩
        · split at he <;> simp at he <;> exact ⟨cls, by simp, by simp [he]⟩
        · obtain ⟨c, hc, h⟩ := ih e he
          exact ⟨c, by simp [hc], h⟩

/-- The export phase creates each class's data file at most as often
as that class occurs in the list. -/
lemma runExports_dataCreate_count (env : RunEnv) (f : Flags) :
    ∀ (cs : List ExportClass) (k : String),
      (runExports env f cs).1.count (RunEvent.dataCreate k)
        ≤ (cs.map ExportClass.key).count k := by
  intro cs
  induction cs with
  | nil => intro k; simp [runExports]
  | cons cls rest ih =>
    intro k
    have hevs : ∀ b1 b2 : Bool,
        (((if b1 then [RunEvent.dataCreate cls.key] else []) ++
          (if b1 && b2 then [RunEvent.readIDs cls.key] else [])).count
            (RunEvent.dataCreate k))
          ≤ (if cls.key == k then 1 else 0) := by
      intro b1 b2
      cases b1 <;> cases b2 <;>
        simp [List.count_append, List.count_cons, List.count_nil] <;>
        split_ifs <;> simp_all
    have hgoal : ((cls :: rest).map ExportClass.key).count k
        = (rest.map ExportClass.key).count k + (if cls.key == k then 1 else 0) := by
      simp [List.count_cons, BEq.comm]
    rw [hgoal]
    by_cases hskip : skipFlag f cls.key
    · rw [runExports, if_pos hskip]
      exact le_trans (ih k) (Nat.le_add_right _ _)
    · rw [runExports, if_neg hskip]
      rcases hE : ExportData cls (env.attemptsOf cls.key) (env.parseOf cls.key)
          (env.createOkO cls.key) (env.openOkO cls.key) (env.linesOf cls.key) with
        msg | v
      · calc _ ≤ (if cls.key == k then 1 else 0) :=
              hevs (env.createOkO cls.key) (env.openOkO cls.key)
          _ ≤ _ := Nat.le_add_left _ _
      · rw [List.count_append]
        exact le_trans
          (Nat.add_le_add (hevs (env.createOkO cls.key) (env.openOkO cls.key)) (ih k))
          (by omega)

/-- The export phase never writes a snapshot. -/
lemma runExports_no_snapshot (env : RunEnv) (f : Flags)
    (cs : List ExportClass) (k : String) :
    RunEvent.snapshotWrite k ∉ (runExports env f cs).1 := by
  intro hmem
  obtain ⟨c, _, h | h⟩ := runExports_events_shape env f cs _ hmem <;> simp at h

/-- C8.  Acquire-before-fetch: in a run whose snapshot stage succeeds,
the trace splits into a snapshot phase followed by an export phase —
the snapshot phase consists only of snapshot writes and holds exactly
one snapshot write per EntityClass, the export phase holds no snapshot
write at all, and each class's output data file is created at most
once.  Every identifier read thus happens after every class's snapshot
has been fully downloaded, decompressed and written. -/
theorem acquire_before_fetch (env : RunEnv) (f : Flags)
    (order : List (String × DailyExport))
    (hperm : order.Perm dailyExportsTable)
    (body plain : String → String)
    (hf : ∀ u, env.fetch u = .ok (body u))
    (hg : ∀ s, env.gunzip s = .ok (plain s))
    (hw : ∀ pth, env.writeOk pth = true) :
    ∃ post : List RunEvent,
      (mainRun env f order).1
        = order.map (fun e => RunEvent.snapshotWrite e.1) ++ post
      ∧ (∀ e ∈ order.map (fun e => RunEvent.snapshotWrite e.1),
          ∃ k, e = RunEvent.snapshotWrite k)
      ∧ (∀ k, RunEvent.snapshotWrite k ∉ post)
      ∧ (∀ k ∈ dailyExportsTable.map Prod.fst,
          (mainRun env f order).1.count (RunEvent.snapshotWrite k) = 1)
      ∧ (∀ k, (mainRun env f order).1.count (RunEvent.dataCreate k) ≤ 1) := by
  have hG := getDailyExportsLoop_ok env.cwd env.fetch env.gunzip env.writeOk
    (ValidateOutputPath env.cwd env.pathExists
      (NewMovieDB env.apiKey env.exportDateFlag env.now) env.outputPathFlag).1
    body plain hf hg hw order
  have hmain : (mainRun env f order).1
      = order.map (fun e => RunEvent.snapshotWrite e.1)
        ++ (if f.justIDs then [] else (runExports env f exportClassList).1) := by
    by_cases hj : f.justIDs <;>
      simp [mainRun, GetDailyExports, hG, hj, List.map_map, Function.comp]
  have hsnapcount : ∀ k, (order.map
        (fun e => RunEvent.snapshotWrite e.1)).count (RunEvent.snapshotWrite k)
      = (order.map Prod.fst).count k := by
    intro k
    have hmm : order.map (fun e => RunEvent.snapshotWrite e.1)
        = (order.map Prod.fst).map RunEvent.snapshotWrite := by
      simp [List.map_map]
    rw [hmm]
    exact List.count_map_of_injective _ RunEvent.snapshotWrite
      (fun a b hab => by simpa using hab) k
  have hcount_fst : ∀ k, (order.map Prod.fst).count k
      = (dailyExportsTable.map Prod.fst).count k :=
    fun k => (hperm.map Prod.fst).count_eq k
  have htable : ∀ k ∈ dailyExportsTable.map Prod.fst,
      (dailyExportsTable.map Prod.fst).count k = 1 := by decide
  have hpostsnap : ∀ k, RunEvent.snapshotWrite k
      ∉ (if f.justIDs then [] else (runExports env f exportClassList).1) := by
    intro k
    by_cases hj : f.justIDs
    · simp [hj]
    · simp only [hj, if_false]
      exact runExports_no_snapshot env f exportClassList k
  have hsnapnodata : ∀ k, RunEvent.dataCreate k
      ∉ order.map (fun e => RunEvent.snapshotWrite e.1) := by
    intro k hmem
    obtain ⟨x, _, hx⟩ := List.mem_map.mp hmem
    simp at hx
  refine ⟨(if f.justIDs then [] else (runExports env f exportClassList).1),
    hmain, ?_, hpostsnap, ?_, ?_⟩
  · intro e he
    obtain ⟨x, _, hx⟩ := List.mem_map.mp he
    exact ⟨x.1, hx.symm⟩
  · intro k hk
    rw [hmain, List.count_append, hsnapcount, hcount_fst, htable k hk,
      List.count_eq_zero_of_not_mem (hpostsnap k)]
  · intro k
    rw [hmain, List.count_append,
      List.count_eq_zero_of_not_mem (hsnapnodata k), Nat.zero_add]
    by_cases hj : f.justIDs
    · simp [hj]
    · simp only [hj, if_false]
      refine le_trans (runExports_dataCreate_count env f exportClassList k) ?_
      have hnd : (exportClassList.map ExportClass.key).Nodup := by decide
      exact List.nodup_iff_count_le_one.mp hnd k

/-- Witness for C8 at a concrete run environment: the table order
itself, trivial oracles, no skips. -/
theorem acquire_before_fetch_witness :
    ∃ post : List RunEvent,
      (mainRun
        { apiKey := "k", exportDateFlag := "", outputPathFlag := "/o", cwd := "/",
          now := ⟨2024, 1, 2, 9, 0, 0⟩, pathExists := fun _ => true,
          fetch := fun u => .ok u, gunzip := fun s => .ok s,
          writeOk := fun _ => true, attemptsOf := fun _ _ _ => ⟨200, false, "r"⟩,
          parseOf := fun _ _ => some 1, linesOf := fun _ => [],
          createOkO := fun _ => true, openOkO := fun _ => true }
        ⟨false, false, false, false, false, false, false, false⟩
        dailyExportsTable).1
        = dailyExportsTable.map (fun e => RunEvent.snapshotWrite e.1) ++ post
      ∧ (∀ e ∈ dailyExportsTable.map (fun e => RunEvent.snapshotWrite e.1),
          ∃ k, e = RunEvent.snapshotWrite k)
      ∧ (∀ k, RunEvent.snapshotWrite k ∉ post)
      ∧ (∀ k ∈ dailyExportsTable.map Prod.fst,
          (mainRun
            { apiKey := "k", exportDateFlag := "", outputPathFlag := "/o", cwd := "/",
              now := ⟨2024, 1, 2, 9, 0, 0⟩, pathExists := fun _ => true,
              fetch := fun u => .ok u, gunzip := fun s => .ok s,
              writeOk := fun _ => true, attemptsOf := fun _ _ _ => ⟨200, false, "r"⟩,
              parseOf := fun _ _ => some 1, linesOf := fun _ => [],
              createOkO := fun _ => true, openOkO := fun _ => true }
            ⟨false, false, false, false, false, false, false, false⟩
            dailyExportsTable).1.count (RunEvent.snapshotWrite k) = 1)
      ∧ (∀ k,
          (mainRun
            { apiKey := "k", exportDateFlag := "", outputPathFlag := "/o", cwd := "/",
              now := ⟨2024, 1, 2, 9, 0, 0⟩, pathExists := fun _ => true,
              fetch := fun u => .ok u, gunzip := fun s => .ok s,
              writeOk := fun _ => true, attemptsOf := fun _ _ _ => ⟨200, false, "r"⟩,
              parseOf := fun _ _ => some 1, linesOf := fun _ => [],
              createOkO := fun _ => true, openOkO := fun _ => true }
            ⟨false, false, false, false, false, false, false, false⟩
            dailyExportsTable).1.count (RunEvent.dataCreate k) ≤ 1) :=
  acquire_before_fetch _ _ dailyExportsTable (List.Perm.refl _)
    (fun u => u) (fun s => s) (fun _ => rfl) (fun _ => rfl) (fun _ => rfl)

end GetTmdb
